import Mathlib

/-!
# Verification of the Volt behavior-model core

Shallow embedding of the statistics engine (`app/services/statistics.py`),
the behavior-model update state machine (`app/services/behavior_engine.py`)
and the simulation engine (`app/services/simulation_old.py`), together with
proofs settling the stated properties of the specification.

Python floats are modelled as real numbers (`ℝ`); Python dicts holding the
per-category records are modelled as records whose optionally-present keys
(`min`/`max` of a fresh stats dict, the habit distributions) are `Option`
fields, and the persisted string-keyed maps are association lists in
insertion order, matching Python dict iteration order.  Fields of the
persisted model that the core never reads (`last_updated`,
`monthly_patterns`) are omitted.
-/

namespace Volt

/-! ## Constants (`app/utils/constants.py`) -/

def ESSENTIAL_CATEGORIES : List String :=
  ["GROCERIES", "UTILITIES", "RENT", "HEALTHCARE", "TRANSPORTATION"]

def DISCRETIONARY_CATEGORIES : List String :=
  ["ENTERTAINMENT", "DINING", "SHOPPING", "TRAVEL"]

def DECAY_FACTOR : ℝ := 0.98

def ELASTICITY_CONFIG : List (String × ℝ) :=
  [("GROCERIES", 0.15), ("UTILITIES", 0.10), ("RENT", 0.05), ("HEALTHCARE", 0.12),
   ("TRANSPORTATION", 0.25), ("ENTERTAINMENT", 0.75), ("DINING", 0.70),
   ("SHOPPING", 0.65), ("TRAVEL", 0.80), ("OTHER", 0.40)]

/-! ## Per-category statistics records (`app/services/statistics.py`)

A stats record is a Python dict; every read in the source goes through
`dict.get` with a default (`0` for the numeric fields), except `min`/`max`
which default to the incoming amount, so those two are `Option` fields:
`none` models the key being absent (the empty dict `{}`). -/

structure CategoryStats where
  count : ℕ
  sum : ℝ
  mean : ℝ
  variance : ℝ
  std_dev : ℝ
  m2 : ℝ
  min : Option ℝ
  max : Option ℝ

/-- The empty stats dict `{}`: every numeric `get` defaults to `0`,
`min`/`max` are absent. -/
def empty_stats : CategoryStats :=
  { count := 0, sum := 0, mean := 0, variance := 0, std_dev := 0, m2 := 0,
    min := none, max := none }

/-- The explicit zero record built by `BehaviorEngine.update_model`
(behavior_engine.py lines 82-86) when a category is new: `min`/`max`
are present and equal to the incoming amount. -/
def init_stats (amount : ℝ) : CategoryStats :=
  { count := 0, sum := 0, mean := 0, variance := 0, std_dev := 0, m2 := 0,
    min := some amount, max := some amount }

/-- `StatisticsService.update_welford_stats` (statistics.py lines 9-41). -/
noncomputable def update_welford_stats (stats : CategoryStats) (new_amount : ℝ) :
    CategoryStats :=
  let n := stats.count + 1
  let mean0 := stats.mean
  let m2_0 := stats.m2
  let delta := new_amount - mean0
  let mean := mean0 + delta / (n : ℝ)
  let delta2 := new_amount - mean
  let m2 := m2_0 + delta * delta2
  let variance := if 1 < n then m2 / (n : ℝ) else 0
  let std_dev := Real.sqrt variance
  { count := n
    sum := stats.sum + new_amount
    mean := mean
    variance := variance
    std_dev := std_dev
    m2 := m2
    min := some (Min.min (stats.min.getD new_amount) new_amount)
    max := some (Max.max (stats.max.getD new_amount) new_amount) }

/-- `StatisticsService.apply_time_decay` (statistics.py lines 43-54):
scales `mean`, `variance`, `m2`; all other keys are kept by the
`{**stats, ...}` splat; no-op when `count == 0`. -/
def apply_time_decay (stats : CategoryStats) (decay_factor : ℝ) : CategoryStats :=
  if stats.count = 0 then stats
  else { stats with
          mean := stats.mean * decay_factor
          variance := stats.variance * decay_factor
          m2 := stats.m2 * decay_factor }

/-- `StatisticsService.calculate_elasticity` (statistics.py lines 56-76). -/
noncomputable def calculate_elasticity (category : String) (stats : CategoryStats) : ℝ :=
  let mean := stats.mean
  let variance := stats.variance
  let base_elasticity := (ELASTICITY_CONFIG.lookup category).getD 0.40
  let volatility_bonus :=
    if 0 < mean then Min.min 0.25 (Real.sqrt variance / mean * 0.5) else 0
  Min.min 1.0 (base_elasticity + volatility_bonus)

/-! ## Transactions -/

/-- The parts of a `datetime` the core reads: `.hour` (0-23) and
`.weekday()` (0-6, Monday = 0). -/
structure TimeStamp where
  hour : Fin 24
  weekday : Fin 7
  deriving Repr

/-- The fields of a transaction record that the behavior core reads.
`category = some ""` is distinct from `none` because Python tests
truthiness (`if not transaction.category`), treating both alike. -/
structure Transaction where
  amount : ℝ
  category : Option String
  type : String
  timestamp : Option TimeStamp
  merchant : Option String

/-- `transaction.category or "OTHER"` (statistics.py line 92):
`None` and the empty string are both falsy. -/
def detect_category (tx : Transaction) : String :=
  match tx.category with
  | none => "OTHER"
  | some c => if c = "" then "OTHER" else c

/-- Z-score factor of `StatisticsService.detect_impulse`
(statistics.py lines 94-104): the stats dict for the category defaults to
`{"mean": 0, "std_dev": 1}` when the category is absent. -/
noncomputable def z_factor_of (tx : Transaction)
    (user_stats : List (String × CategoryStats)) : ℝ :=
  let category := detect_category tx
  let mean := match user_stats.lookup category with
    | some s => s.mean
    | none => 0
  let std_dev := match user_stats.lookup category with
    | some s => s.std_dev
    | none => 1
  if 0 < mean ∧ 0 < std_dev then Min.min 1.0 (|tx.amount - mean| / std_dev / 2.5)
  else 0.3

/-- `StatisticsService.detect_impulse` (statistics.py lines 78-119).
Absent timestamps default to hour 12 and non-weekend. -/
noncomputable def detect_impulse (tx : Transaction)
    (user_stats : List (String × CategoryStats)) : ℝ :=
  let category := detect_category tx
  let z_factor := z_factor_of tx user_stats
  let discretionary_mult : ℝ :=
    if category ∈ DISCRETIONARY_CATEGORIES then 1.5 else 1.0
  let hour : ℕ := match tx.timestamp with
    | some ts => ts.hour
    | none => 12
  let time_mult : ℝ := if 22 ≤ hour ∨ hour ≤ 6 then 1.3 else 1.0
  let is_weekend : Bool := match tx.timestamp with
    | some ts => decide (5 ≤ (ts.weekday : ℕ))
    | none => false
  let weekend_mult : ℝ := if is_weekend then 1.2 else 1.0
  Min.min 1.0 (z_factor * discretionary_mult * time_mult * weekend_mult)

/-! ## The persisted behavior model (`app/models/behaviour.py`,
`app/services/behavior_engine.py`)

String-keyed dicts become association lists in insertion order; the habit
histograms live in a dict whose two keys are created lazily, hence the
`Option` fields.  `last_updated` (a wall-clock effect) and
`monthly_patterns` (written once at creation, never read) are omitted. -/

structure Habits where
  hourly_distribution : Option (List ℕ)
  weekly_distribution : Option (List ℕ)

structure BehaviourModel where
  category_stats : List (String × CategoryStats)
  elasticity : List (String × ℝ)
  baselines : List (String × ℝ)
  impulse_score : ℝ
  habits : Habits
  transaction_count : ℕ

/-- The model created by `update_model` when none exists
(behavior_engine.py lines 36-48): all maps empty, `impulse_score = 0`. -/
def fresh_model : BehaviourModel :=
  { category_stats := [], elasticity := [], baselines := [], impulse_score := 0,
    habits := { hourly_distribution := none, weekly_distribution := none },
    transaction_count := 0 }

/-- `d[k] = v` on a Python dict modelled as an association list:
replace in place when the key exists, append otherwise. -/
def upsert {α : Type} (l : List (String × α)) (k : String) (v : α) :
    List (String × α) :=
  if (l.lookup k).isSome then l.map (fun p => if p.1 = k then (k, v) else p)
  else l ++ [(k, v)]

/-- `if not transaction.category: transaction.category = categorize(...)`
(behavior_engine.py lines 55-64), with the categorization capability
injected as a function. -/
def resolved_category (categorize : Transaction → String) (tx : Transaction) :
    String :=
  match tx.category with
  | none => categorize tx
  | some c => if c = "" then categorize tx else c

/-- The stats record of the touched category after one update cycle
(behavior_engine.py lines 73-91): decay if present, a fresh zero record
otherwise, then the Welford fold. -/
noncomputable def touched_stats (categorize : Transaction → String)
    (model : BehaviourModel) (tx : Transaction) : CategoryStats :=
  match model.category_stats.lookup (resolved_category categorize tx) with
  | some s => update_welford_stats (apply_time_decay s DECAY_FACTOR) tx.amount
  | none => update_welford_stats (init_stats tx.amount) tx.amount

/-- The whole stats map after one update cycle. -/
noncomputable def new_stats (categorize : Transaction → String)
    (model : BehaviourModel) (tx : Transaction) : List (String × CategoryStats) :=
  upsert model.category_stats (resolved_category categorize tx)
    (touched_stats categorize model tx)

/-- The impulse flag of this transaction (behavior_engine.py line 110):
`detect_impulse` sees the transaction with its category already resolved
and the updated stats dict. -/
noncomputable def impulse_flag (categorize : Transaction → String)
    (model : BehaviourModel) (tx : Transaction) : ℝ :=
  detect_impulse { tx with category := some (resolved_category categorize tx) }
    (new_stats categorize model tx)

/-- Temporal-pattern tracking (behavior_engine.py lines 113-127). -/
def update_habits (h : Habits) (ts : TimeStamp) : Habits :=
  let hl := h.hourly_distribution.getD (List.replicate 24 0)
  let wl := h.weekly_distribution.getD (List.replicate 7 0)
  { hourly_distribution := some (hl.set ts.hour (hl.getD ts.hour 0 + 1))
    weekly_distribution := some (wl.set ts.weekday (wl.getD ts.weekday 0 + 1)) }

/-- `BehaviorEngine.update_model` (behavior_engine.py lines 19-143), from
the stored model (or its absence) to the model it persists.  Mirrors the
source: the model is created and committed before the debit check, credits
then return it unchanged. -/
noncomputable def update_model (categorize : Transaction → String)
    (m0 : Option BehaviourModel) (tx : Transaction) : BehaviourModel :=
  let model := m0.getD fresh_model
  if tx.type = "debit" then
    let category := resolved_category categorize tx
    let ts := touched_stats categorize model tx
    let baseline := Max.max 0 (ts.mean - 1.5 * ts.std_dev)
    { category_stats := new_stats categorize model tx
      elasticity := upsert model.elasticity category (calculate_elasticity category ts)
      baselines := upsert model.baselines category
        (match model.baselines.lookup category with
         | none => baseline
         | some old => Min.min old baseline)
      impulse_score := 0.9 * model.impulse_score + 0.1 * impulse_flag categorize model tx
      habits := match tx.timestamp with
        | some t => update_habits model.habits t
        | none => model.habits
      transaction_count := model.transaction_count + 1 }
  else model

/-- The stored model after one `update_model` call, as a function on the
database state for this user: after every call a model exists (it is
created and committed before the debit check). -/
noncomputable def update_model_db (categorize : Transaction → String)
    (m0 : Option BehaviourModel) (tx : Transaction) : Option BehaviourModel :=
  some (update_model categorize m0 tx)

/-- Folding a sequence of transactions into the model, one
`update_model` call each. -/
noncomputable def run_updates (categorize : Transaction → String)
    (m : BehaviourModel) (txs : List Transaction) : BehaviourModel :=
  txs.foldl (fun acc tx => update_model categorize (some acc) tx) m

/-! ## The simulation engine (`app/services/simulation_old.py`)

The database interactions are externalized exactly as the spec's interface
section describes them: the engine receives the stored model (or its
absence) and the window of debit-transaction amounts the date filter
selected.  Python's `round(x, d)` (round-half-to-even on the scaled value)
is modelled exactly on the reals. -/

/-- Round-half-to-even to an integer, as Python's builtin `round`. -/
noncomputable def roundHalfEven (x : ℝ) : ℤ :=
  if Int.fract x = 1 / 2 then (if Even ⌊x⌋ then ⌊x⌋ else ⌊x⌋ + 1)
  else round x

/-- Python `round(x, 1)`. -/
noncomputable def pyRound1 (x : ℝ) : ℝ := (roundHalfEven (x * 10) : ℝ) / 10

/-- Python `round(x, 2)`. -/
noncomputable def pyRound2 (x : ℝ) : ℝ := (roundHalfEven (x * 100) : ℝ) / 100

structure CategoryAnalysis where
  current_monthly : ℝ
  max_reduction_pct : ℝ
  achievable_reduction_pct : ℝ
  monthly_savings : ℝ
  confidence : ℝ
  difficulty : String

structure SimulationResponse where
  scenario_type : String
  target_percent : ℝ
  achievable_percent : ℝ
  baseline_monthly : ℝ
  projected_monthly : ℝ
  total_change : ℝ
  annual_impact : ℝ
  feasibility : String
  category_breakdown : List (String × CategoryAnalysis)
  targeted_categories : Option (List String)

/-- The cap on the change percentage for one category
(simulation_old.py lines 81-108). -/
def category_max_change_pct (scenario_type category : String) (elas : ℝ) : ℝ :=
  if scenario_type = "reduction" then elas * 100
  else if category ∈ ESSENTIAL_CATEGORIES then Min.min 50 (elas * 80)
  else Min.min 200 (elas * 150)

/-- The achievable change percentage for one category
(simulation_old.py lines 81-108): the target clamped to the cap, plus the
impulse boost (itself capped) for discretionary categories in a
reduction. -/
def category_achievable_pct (scenario_type category : String)
    (elas impulse target : ℝ) : ℝ :=
  let max_change_pct := category_max_change_pct scenario_type category elas
  if scenario_type = "reduction" then
    let a := Min.min target max_change_pct
    if category ∈ DISCRETIONARY_CATEGORIES then
      Min.min (a + impulse * 15) max_change_pct
    else a
  else Min.min target max_change_pct

/-- The per-category analysis of `simulate_spending_scenario`
(simulation_old.py lines 76-134), paired with the unrounded
`monthly_change` that feeds `total_achievable_change`. -/
noncomputable def sim_category (model : BehaviourModel) (scenario_type : String)
    (target_percent : ℝ) (category : String) : CategoryAnalysis × ℝ :=
  let cat_stats := (model.category_stats.lookup category).getD empty_stats
  let mean_spending := cat_stats.mean
  let category_elasticity := (model.elasticity.lookup category).getD 0.3
  let max_change_pct :=
    category_max_change_pct scenario_type category category_elasticity
  let achievable_change_pct :=
    category_achievable_pct scenario_type category category_elasticity
      model.impulse_score target_percent
  let monthly_change := mean_spending * (achievable_change_pct / 100)
  let confidence :=
    Min.min 1.0 (((cat_stats.count : ℝ) / 20) *
      (1 - cat_stats.variance / (mean_spending ^ 2 + 1)))
  let difficulty :=
    if target_percent * 0.9 ≤ achievable_change_pct then "easy"
    else if target_percent * 0.6 ≤ achievable_change_pct then "moderate"
    else "challenging"
  ({ current_monthly := pyRound2 mean_spending
     max_reduction_pct := pyRound1 max_change_pct
     achievable_reduction_pct := pyRound1 achievable_change_pct
     monthly_savings := pyRound2 monthly_change
     confidence := pyRound2 confidence
     difficulty := difficulty },
   monthly_change)

/-- `SimulationService.simulate_spending_scenario`
(simulation_old.py lines 16-174), without the free-text recommendation
strings.  `txs` is the window of debit amounts the date filter returned.
Python's `if target_categories:` treats an empty list like `None`. -/
noncomputable def simulate_spending_scenario (m0 : Option BehaviourModel)
    (txs : List ℝ) (scenario_type : String) (target_percent : ℝ)
    (target_categories : Option (List String)) :
    Except String SimulationResponse :=
  match m0 with
  | none => .error "No behavior model found for user"
  | some model =>
    if txs = [] then .error "No transactions found in the specified period"
    else
      let baseline_total := txs.sum
      let stats := model.category_stats
      let use_targets : Bool := match target_categories with
        | some tcs => !tcs.isEmpty
        | none => false
      let requested := (target_categories.getD []).filter
        (fun c => (stats.lookup c).isSome)
      if use_targets && requested.isEmpty then
        .error "None of the specified categories found in user data"
      else
        let categories_to_analyze :=
          if use_targets then requested else stats.map Prod.fst
        let analyses := categories_to_analyze.map
          (fun c => (c, sim_category model scenario_type target_percent c))
        let total_achievable_change := (analyses.map (fun p => p.2.2)).sum
        let projected_total :=
          if scenario_type = "reduction" then baseline_total - total_achievable_change
          else baseline_total + total_achievable_change
        let actual_change_pct :=
          if 0 < baseline_total then total_achievable_change / baseline_total * 100
          else 0
        let feasibility :=
          if target_percent * 0.9 ≤ actual_change_pct then "highly_achievable"
          else if target_percent * 0.7 ≤ actual_change_pct then "achievable"
          else if target_percent * 0.5 ≤ actual_change_pct then "challenging"
          else "unrealistic"
        .ok { scenario_type := scenario_type
              target_percent := target_percent
              achievable_percent := pyRound1 actual_change_pct
              baseline_monthly := pyRound2 baseline_total
              projected_monthly := pyRound2 projected_total
              total_change := pyRound2 total_achievable_change
              annual_impact := pyRound2 (total_achievable_change * 12)
              feasibility := feasibility
              category_breakdown := analyses.map (fun p => (p.1, p.2.1))
              targeted_categories := target_categories }

structure CategoryReallocation where
  category : String
  current_monthly : ℝ
  change_amount : ℝ
  new_monthly : ℝ
  change_percent : ℝ
  feasibility : String

structure ReallocationResponse where
  baseline_monthly : ℝ
  projected_monthly : ℝ
  is_balanced : Bool
  reallocations : List CategoryReallocation
  feasibility_assessment : String

/-- One entry of the reallocation analysis
(simulation_old.py lines 226-297), without the free-text notes. -/
noncomputable def realloc_detail (model : BehaviourModel)
    (category : String) (change : ℝ) : CategoryReallocation :=
  if (category = "SAVINGS" ∨ category = "OTHER") ∧ 0 < change then
    { category := category, current_monthly := 0, change_amount := change,
      new_monthly := change, change_percent := 100.0,
      feasibility := "comfortable" }
  else
    let current := ((model.category_stats.lookup category).getD empty_stats).mean
    let new_amount := current + change
    let change_percent := if 0 < current then change / current * 100 else 0
    let category_elasticity := (model.elasticity.lookup category).getD 0.3
    let feasibility :=
      if change < 0 then
        let max_reduction_pct := category_elasticity * 100
        let reduction_pct := |change_percent|
        if reduction_pct ≤ max_reduction_pct * 0.5 then "comfortable"
        else if reduction_pct ≤ max_reduction_pct then "moderate"
        else if reduction_pct ≤ max_reduction_pct * 1.5 then "difficult"
        else "unrealistic"
      else
        if category ∈ ESSENTIAL_CATEGORIES then
          if change_percent ≤ 20 then "comfortable"
          else if change_percent ≤ 40 then "moderate"
          else "difficult"
        else
          if change_percent ≤ 50 then "comfortable"
          else if change_percent ≤ 100 then "moderate"
          else "difficult"
    { category := category, current_monthly := current, change_amount := change,
      new_monthly := new_amount, change_percent := change_percent,
      feasibility := feasibility }

def feasibility_score (f : String) : ℝ :=
  if f = "comfortable" then 0 else if f = "moderate" then 1
  else if f = "difficult" then 2 else 3

/-- `SimulationService.simulate_reallocation`
(simulation_old.py lines 177-345), without the free-text warnings,
recommendations and chart payload.  An empty reallocation request is the
`ZeroDivisionError` of the average-difficulty step, modelled as an
error. -/
noncomputable def simulate_reallocation (m0 : Option BehaviourModel)
    (txs : List ℝ) (reallocations : List (String × ℝ)) :
    Except String ReallocationResponse :=
  match m0 with
  | none => .error "No behavior model found for user"
  | some model =>
    if txs = [] then .error "No transactions found in the specified period"
    else
      let baseline_total := txs.sum
      let stats := model.category_stats
      if ¬ (reallocations.all (fun p =>
          (stats.lookup p.1).isSome || p.1 == "SAVINGS" || p.1 == "OTHER")) then
        .error "Category not found in your spending history"
      else
        let details := reallocations.map (fun p => realloc_detail model p.1 p.2)
        if details.length = 0 then .error "division by zero"
        else
          let avg_difficulty :=
            (details.map (fun r => feasibility_score r.feasibility)).sum /
              (details.length : ℝ)
          let overall :=
            if avg_difficulty ≤ 0.5 then
              "This reallocation is comfortable and achievable"
            else if avg_difficulty ≤ 1.5 then
              "This reallocation is moderately challenging but achievable"
            else if avg_difficulty ≤ 2.5 then
              "This reallocation will be difficult and requires strong commitment"
            else
              "This reallocation may be unrealistic - consider a more moderate approach"
          .ok { baseline_monthly := baseline_total
                projected_monthly := baseline_total
                is_balanced := true
                reallocations := details
                feasibility_assessment := overall }

/-! ## Association-list lemmas -/

lemma lookup_map_replace_self {α : Type} (l : List (String × α)) (k : String)
    (v : α) (hs : (l.lookup k).isSome) :
    (l.map (fun p => if p.1 = k then (k, v) else p)).lookup k = some v := by
  induction l with
  | nil => simp at hs
  | cons p t ih =>
    obtain ⟨pk, pv⟩ := p
    by_cases hp : pk = k
    · subst hp
      simp [List.lookup_cons]
    · simp only [List.map_cons, if_neg hp, List.lookup_cons] at *
      have hk : (k == pk) = false := by simp [Ne.symm hp]
      simp only [hk] at hs ⊢
      exact ih hs

lemma lookup_map_replace_ne {α : Type} (l : List (String × α)) (k : String)
    (v : α) (k' : String) (h : k' ≠ k) :
    (l.map (fun p => if p.1 = k then (k, v) else p)).lookup k' = l.lookup k' := by
  induction l with
  | nil => simp
  | cons p t ih =>
    obtain ⟨pk, pv⟩ := p
    by_cases hp : pk = k
    · subst hp
      have hk : (k' == pk) = false := by simp [h]
      simp [List.lookup_cons, hk, ih]
    · simp only [List.map_cons, if_neg hp, List.lookup_cons]
      cases hkk : (k' == pk) <;> simp [ih]

lemma lookup_append_single_self {α : Type} (l : List (String × α)) (k : String)
    (v : α) (hn : l.lookup k = none) :
    (l ++ [(k, v)]).lookup k = some v := by
  induction l with
  | nil => simp [List.lookup_cons]
  | cons p t ih =>
    obtain ⟨pk, pv⟩ := p
    simp only [List.lookup_cons, List.cons_append] at *
    cases hkk : (k == pk) with
    | true => simp [hkk] at hn
    | false => simp only [hkk] at hn ⊢; exact ih hn

lemma lookup_append_single_ne {α : Type} (l : List (String × α)) (k : String)
    (v : α) (k' : String) (h : k' ≠ k) :
    (l ++ [(k, v)]).lookup k' = l.lookup k' := by
  have hk : (k' == k) = false := beq_eq_false_iff_ne.mpr h
  induction l with
  | nil => simp [List.lookup_cons, hk]
  | cons p t ih =>
    obtain ⟨pk, pv⟩ := p
    simp only [List.lookup_cons, List.cons_append]
    cases hkk : (k' == pk) <;> simp [hkk, ih]

lemma lookup_upsert_self {α : Type} (l : List (String × α)) (k : String) (v : α) :
    (upsert l k v).lookup k = some v := by
  unfold upsert
  by_cases hs : (l.lookup k).isSome
  · rw [if_pos hs]
    exact lookup_map_replace_self l k v hs
  · rw [if_neg hs]
    exact lookup_append_single_self l k v (Option.not_isSome_iff_eq_none.mp hs)

lemma lookup_upsert_ne {α : Type} (l : List (String × α)) (k : String) (v : α)
    (k' : String) (h : k' ≠ k) :
    (upsert l k v).lookup k' = l.lookup k' := by
  unfold upsert
  by_cases hs : (l.lookup k).isSome
  · rw [if_pos hs]
    exact lookup_map_replace_ne l k v k' h
  · rw [if_neg hs]
    exact lookup_append_single_ne l k v k' h

/-! ## Projection lemmas for `update_model` -/

lemma update_model_not_debit (categorize : Transaction → String)
    (m0 : Option BehaviourModel) (tx : Transaction) (h : ¬ tx.type = "debit") :
    update_model categorize m0 tx = m0.getD fresh_model := by
  unfold update_model
  rw [if_neg h]

/-- The baseline value stored for the touched category. -/
noncomputable def new_baseline_value (categorize : Transaction → String)
    (model : BehaviourModel) (tx : Transaction) : ℝ :=
  let baseline := Max.max 0 ((touched_stats categorize model tx).mean -
    1.5 * (touched_stats categorize model tx).std_dev)
  match model.baselines.lookup (resolved_category categorize tx) with
  | none => baseline
  | some old => Min.min old baseline

lemma update_model_debit (categorize : Transaction → String) (m : BehaviourModel)
    (tx : Transaction) (hd : tx.type = "debit") :
    update_model categorize (some m) tx =
      { category_stats := new_stats categorize m tx
        elasticity := upsert m.elasticity (resolved_category categorize tx)
          (calculate_elasticity (resolved_category categorize tx)
            (touched_stats categorize m tx))
        baselines := upsert m.baselines (resolved_category categorize tx)
          (new_baseline_value categorize m tx)
        impulse_score := 0.9 * m.impulse_score + 0.1 * impulse_flag categorize m tx
        habits := match tx.timestamp with
          | some t => update_habits m.habits t
          | none => m.habits
        transaction_count := m.transaction_count + 1 } := by
  unfold update_model new_baseline_value
  rw [if_pos hd]
  rfl

/-! ## Claim C6: the time-decay frame -/

lemma apply_time_decay_count (s : CategoryStats) (f : ℝ) :
    (apply_time_decay s f).count = s.count := by
  unfold apply_time_decay
  split <;> rfl

/-- **C6**: `apply_time_decay` returns a record with `count == 0` unchanged;
for `count > 0` it scales exactly `mean`, `variance` and `m2` by the factor
while `count`, `sum`, `min` and `max` are untouched; iterating any number
of decays never changes `count`. -/
theorem decay_frame (s : CategoryStats) (f : ℝ) :
    (s.count = 0 → apply_time_decay s f = s) ∧
    (0 < s.count →
      (apply_time_decay s f).mean = s.mean * f ∧
      (apply_time_decay s f).variance = s.variance * f ∧
      (apply_time_decay s f).m2 = s.m2 * f ∧
      (apply_time_decay s f).count = s.count ∧
      (apply_time_decay s f).sum = s.sum ∧
      (apply_time_decay s f).min = s.min ∧
      (apply_time_decay s f).max = s.max) ∧
    (∀ n : ℕ, ((fun t => apply_time_decay t f)^[n] s).count = s.count) := by
  refine ⟨fun h => ?_, fun h => ?_, fun n => ?_⟩
  · unfold apply_time_decay
    rw [if_pos h]
  · have h' : ¬ s.count = 0 := Nat.pos_iff_ne_zero.mp h
    unfold apply_time_decay
    rw [if_neg h']
    exact ⟨rfl, rfl, rfl, rfl, rfl, rfl, rfl⟩
  · induction n with
    | zero => rfl
    | succ n ih =>
      rw [Function.iterate_succ_apply', apply_time_decay_count, ih]

/-- Witness for C6 at concrete inputs: the empty record is a fixed point,
and a record holding one observation keeps its count under decay. -/
theorem decay_frame_witness :
    apply_time_decay empty_stats 0.5 = empty_stats ∧
    ((fun t => apply_time_decay t 0.5)^[3] empty_stats).count = empty_stats.count :=
  ⟨(decay_frame empty_stats 0.5).1 rfl, (decay_frame empty_stats 0.5).2.2 3⟩

/-! ## Claim C8: model creation -/

/-- A concrete categorizer for closed statements: the constant fallback. -/
def K : Transaction → String := fun _ => "OTHER"

/-- A credit transaction. -/
def creditTx : Transaction :=
  { amount := 25, category := none, type := "credit", timestamp := none,
    merchant := none }

/-- **C8 counterexample**: the claim says a credit transaction arriving when
no model exists stores nothing; in the source the model is created and
committed (behavior_engine.py lines 36-48) *before* the debit check
(line 51), so the stored state after the call is a fresh model, not
absence. -/
theorem creation_on_credit_counterexample :
    update_model_db K none creditTx = some fresh_model ∧
    (some fresh_model : Option BehaviourModel) ≠ none := by
  constructor
  · unfold update_model_db update_model creditTx
    simp
  · simp

/-- **C8 (amended)**: a model is created lazily on the *first `update_model`
call of any type* — a credit with no stored model creates and stores a
fresh model; a credit on an existing model leaves it unchanged; the fresh
model has all maps empty and `impulse_score = 0`. -/
theorem model_creation (categorize : Transaction → String) (m : BehaviourModel)
    (tx : Transaction) (h : tx.type ≠ "debit") :
    update_model_db categorize (some m) tx = some m ∧
    update_model_db categorize none tx = some fresh_model ∧
    fresh_model.category_stats = [] ∧
    fresh_model.elasticity = [] ∧
    fresh_model.baselines = [] ∧
    fresh_model.habits.hourly_distribution = none ∧
    fresh_model.habits.weekly_distribution = none ∧
    fresh_model.impulse_score = 0 := by
  unfold update_model_db
  rw [update_model_not_debit _ _ _ h, update_model_not_debit _ _ _ h]
  exact ⟨rfl, rfl, rfl, rfl, rfl, rfl, rfl, rfl⟩

/-- Witness for C8 (amended) at the concrete credit transaction. -/
theorem model_creation_witness :
    update_model_db K (some fresh_model) creditTx = some fresh_model ∧
    update_model_db K none creditTx = some fresh_model :=
  ⟨(model_creation K fresh_model creditTx (by simp [creditTx])).1,
   (model_creation K fresh_model creditTx (by simp [creditTx])).2.1⟩

/-! ## Claim C3: the baseline ratchet -/

/-- **C3**: once a baseline is stored for a category it can only move down:
any further `update_model` call stores a value `b' ≤ b`, and a debit that
touches the category stores exactly
`min b (max 0 (mean - 1.5 * std_dev))` computed from the freshly updated
stats. -/
theorem baseline_ratchet (categorize : Transaction → String) (m : BehaviourModel)
    (tx : Transaction) (cat : String) (b : ℝ)
    (h : m.baselines.lookup cat = some b) :
    ∃ b', (update_model categorize (some m) tx).baselines.lookup cat = some b' ∧
      b' ≤ b ∧
      (tx.type = "debit" → resolved_category categorize tx = cat →
        b' = Min.min b (Max.max 0 ((touched_stats categorize m tx).mean -
          1.5 * (touched_stats categorize m tx).std_dev))) := by
  by_cases hd : tx.type = "debit"
  · by_cases hc : resolved_category categorize tx = cat
    · refine ⟨Min.min b (Max.max 0 ((touched_stats categorize m tx).mean -
        1.5 * (touched_stats categorize m tx).std_dev)), ?_, min_le_left _ _,
        fun _ _ => rfl⟩
      rw [update_model_debit categorize m tx hd]
      show (upsert m.baselines (resolved_category categorize tx)
        (new_baseline_value categorize m tx)).lookup cat = _
      rw [← hc, lookup_upsert_self]
      unfold new_baseline_value
      rw [hc, h]
    · refine ⟨b, ?_, le_refl b, fun _ hc' => absurd hc' hc⟩
      rw [update_model_debit categorize m tx hd]
      show (upsert m.baselines (resolved_category categorize tx)
        (new_baseline_value categorize m tx)).lookup cat = _
      rw [lookup_upsert_ne _ _ _ _ (fun e => hc e.symm), h]
  · refine ⟨b, ?_, le_refl b, fun hd' => absurd hd' hd⟩
    rw [update_model_not_debit _ _ _ hd]
    exact h

/-- A debit transaction already labelled DINING, with a timestamp. -/
def diningTx : Transaction :=
  { amount := 40, category := some "DINING", type := "debit",
    timestamp := some { hour := 13, weekday := 2 }, merchant := none }

/-- A model that already stores a baseline for DINING. -/
def dining_model : BehaviourModel :=
  { category_stats := [], elasticity := [], baselines := [("DINING", 5)],
    impulse_score := 0,
    habits := { hourly_distribution := none, weekly_distribution := none },
    transaction_count := 0 }

/-- Witness for C3: updating a model that stores baseline 5 for DINING with
a DINING debit keeps the stored baseline at or below 5. -/
theorem baseline_ratchet_witness :
    ∃ b', (update_model K (some dining_model) diningTx).baselines.lookup
        "DINING" = some b' ∧ b' ≤ 5 ∧
      (diningTx.type = "debit" → resolved_category K diningTx = "DINING" →
        b' = Min.min 5 (Max.max 0 ((touched_stats K dining_model diningTx).mean -
          1.5 * (touched_stats K dining_model diningTx).std_dev))) :=
  baseline_ratchet K dining_model diningTx "DINING" 5 rfl

/-! ## Claim C4: the impulse EMA -/

lemma z_factor_of_nonneg (tx : Transaction)
    (st : List (String × CategoryStats)) : 0 ≤ z_factor_of tx st := by
  unfold z_factor_of
  dsimp only
  split_ifs with h
  · refine le_min (by norm_num) ?_
    have h2 := h.2
    positivity
  · norm_num

lemma detect_impulse_bounds (tx : Transaction)
    (st : List (String × CategoryStats)) :
    0 ≤ detect_impulse tx st ∧ detect_impulse tx st ≤ 1 := by
  have hz := z_factor_of_nonneg tx st
  unfold detect_impulse
  dsimp only
  refine ⟨le_min (by norm_num) ?_, le_trans (min_le_left _ _) (by norm_num)⟩
  refine mul_nonneg (mul_nonneg (mul_nonneg hz ?_) ?_) ?_ <;>
    · split_ifs <;> norm_num

/-- **C4**: every `update_model` call on a debit transaction sets
`impulse_score = 0.9 * prior + 0.1 * flag`, where the flag computed by
`detect_impulse` is always in `[0,1]`; hence the score remains in `[0,1]`
whenever the prior score was. -/
theorem impulse_ema (categorize : Transaction → String) (m : BehaviourModel)
    (tx : Transaction) (hd : tx.type = "debit") :
    (update_model categorize (some m) tx).impulse_score =
      0.9 * m.impulse_score + 0.1 * impulse_flag categorize m tx ∧
    0 ≤ impulse_flag categorize m tx ∧ impulse_flag categorize m tx ≤ 1 ∧
    (0 ≤ m.impulse_score → m.impulse_score ≤ 1 →
      0 ≤ (update_model categorize (some m) tx).impulse_score ∧
      (update_model categorize (some m) tx).impulse_score ≤ 1) := by
  have hb := detect_impulse_bounds
    { tx with category := some (resolved_category categorize tx) }
    (new_stats categorize m tx)
  have he : (update_model categorize (some m) tx).impulse_score =
      0.9 * m.impulse_score + 0.1 * impulse_flag categorize m tx := by
    rw [update_model_debit categorize m tx hd]
  refine ⟨he, hb.1, hb.2, fun h0 h1 => ?_⟩
  rw [he]
  constructor
  · have := hb.1
    unfold impulse_flag
    nlinarith [hb.1]
  · unfold impulse_flag at hb ⊢
    nlinarith [hb.2]

/-- Witness for C4: a first DINING debit on a fresh model keeps the score
inside `[0,1]` and the EMA equation holds literally. -/
theorem impulse_ema_witness :
    (update_model K (some fresh_model) diningTx).impulse_score =
      0.9 * fresh_model.impulse_score + 0.1 * impulse_flag K fresh_model diningTx ∧
    0 ≤ (update_model K (some fresh_model) diningTx).impulse_score ∧
    (update_model K (some fresh_model) diningTx).impulse_score ≤ 1 :=
  ⟨(impulse_ema K fresh_model diningTx rfl).1,
   ((impulse_ema K fresh_model diningTx rfl).2.2.2 (le_refl 0) zero_le_one).1,
   ((impulse_ema K fresh_model diningTx rfl).2.2.2 (le_refl 0) zero_le_one).2⟩

/-! ## Claim C9: transactions without a timestamp -/

/-- A timestamp-less debit in an essential category. -/
def tx9 : Transaction :=
  { amount := 10, category := some "RENT", type := "debit", timestamp := none,
    merchant := none }

/-- **C9 counterexample**: the claim says a timestamp-less debit leaves
`impulse_score` unchanged; in the source the impulse EMA still runs with
the defaults hour 12 / non-weekend (statistics.py lines 110, 114), so the
first timestamp-less debit moves the score from 0 to 0.03. -/
theorem impulse_without_timestamp_counterexample :
    (update_model K (some fresh_model) tx9).impulse_score ≠
      fresh_model.impulse_score := by
  rw [update_model_debit K fresh_model tx9 rfl]
  have hres : resolved_category K tx9 = "RENT" := rfl
  have hs : new_stats K fresh_model tx9 =
      [("RENT", update_welford_stats (init_stats 10) 10)] := by
    unfold new_stats touched_stats upsert
    rw [hres]
    rfl
  have hstd : (update_welford_stats (init_stats 10) 10).std_dev = 0 := by
    unfold update_welford_stats init_stats
    norm_num
  have hflag : impulse_flag K fresh_model tx9 = 0.3 := by
    unfold impulse_flag detect_impulse z_factor_of
    rw [hs, hres]
    have hdc : detect_category { amount := 10, category := some "RENT", type := "debit", timestamp := none, merchant := none } = "RENT" := rfl
    simp only [tx9, hdc, DISCRETIONARY_CATEGORIES]
    norm_num [List.lookup_cons, hstd, min_def]
    have hne : ¬("RENT" = "ENTERTAINMENT" ∨ "RENT" = "DINING" ∨
        "RENT" = "SHOPPING" ∨ "RENT" = "TRAVEL") := by decide
    simp only [if_neg hne]
    norm_num
  show 0.9 * fresh_model.impulse_score + 0.1 * impulse_flag K fresh_model tx9 ≠
    fresh_model.impulse_score
  rw [hflag]
  show (0.9 * 0 + 0.1 * 0.3 : ℝ) ≠ 0
  norm_num

/-- **C9 (amended)**: a timestamp-less debit is excluded from *temporal*
analysis — the habit histograms are untouched — and its impulse factors
fall back to the neutral defaults (hour 12, non-weekend, multipliers 1),
but the impulse EMA still updates with the remaining factors. -/
theorem no_timestamp_neutral (categorize : Transaction → String)
    (m : BehaviourModel) (tx : Transaction) (hd : tx.type = "debit")
    (ht : tx.timestamp = none) :
    (update_model categorize (some m) tx).habits = m.habits ∧
    (update_model categorize (some m) tx).impulse_score =
      0.9 * m.impulse_score + 0.1 * impulse_flag categorize m tx ∧
    impulse_flag categorize m tx =
      Min.min 1.0
        (z_factor_of { tx with category := some (resolved_category categorize tx) }
            (new_stats categorize m tx) *
          (if detect_category { tx with category := some (resolved_category categorize tx) }
              ∈ DISCRETIONARY_CATEGORIES then 1.5 else 1.0)) := by
  refine ⟨?_, ?_, ?_⟩
  · rw [update_model_debit categorize m tx hd]
    show (match tx.timestamp with
          | some t => update_habits m.habits t
          | none => m.habits) = m.habits
    rw [ht]
  · rw [update_model_debit categorize m tx hd]
  · unfold impulse_flag detect_impulse
    dsimp only
    have htt : ({ tx with category := some (resolved_category categorize tx) } :
        Transaction).timestamp = none := ht
    rw [htt]
    norm_num

/-- Witness for C9 (amended) at the concrete timestamp-less debit. -/
theorem no_timestamp_neutral_witness :
    (update_model K (some fresh_model) tx9).habits = fresh_model.habits :=
  (no_timestamp_neutral K fresh_model tx9 rfl rfl).1

/-! ## Claim C10: habit-histogram sums -/

def dist_sum : Option (List ℕ) → ℕ
  | none => 0
  | some l => l.sum

/-- The shape invariant of the habit histograms. -/
def habits_wf (h : Habits) : Prop :=
  (∀ l, h.hourly_distribution = some l → l.length = 24) ∧
  (∀ l, h.weekly_distribution = some l → l.length = 7)

lemma sum_set_getD_add_one : ∀ (l : List ℕ) (i : ℕ), i < l.length →
    (l.set i (l.getD i 0 + 1)).sum = l.sum + 1 := by
  intro l
  induction l with
  | nil => intro i h; simp at h
  | cons x t ih =>
    intro i h
    cases i with
    | zero => simp [List.getD_cons_zero, List.sum_cons]; omega
    | succ j =>
      have hj : j < t.length := by simpa using h
      have hset : (x :: t).set (j + 1) ((x :: t).getD (j + 1) 0 + 1) =
          x :: t.set j (t.getD j 0 + 1) := by
        simp [List.getD_cons_succ]
      rw [hset, List.sum_cons, List.sum_cons, ih j hj]
      omega

lemma dist_sum_some (l : List ℕ) : dist_sum (some l) = l.sum := rfl

lemma dist_sum_none : dist_sum none = 0 := rfl

lemma dist_sum_getD (o : Option (List ℕ)) (n : ℕ) :
    (o.getD (List.replicate n 0)).sum = dist_sum o := by
  cases o with
  | none => simp [dist_sum_none, List.sum_replicate]
  | some l => simp [dist_sum_some]

lemma update_habits_sums (h : Habits) (ts : TimeStamp) (hw : habits_wf h) :
    dist_sum (update_habits h ts).hourly_distribution =
      dist_sum h.hourly_distribution + 1 ∧
    dist_sum (update_habits h ts).weekly_distribution =
      dist_sum h.weekly_distribution + 1 ∧
    habits_wf (update_habits h ts) := by
  have hl24 : (h.hourly_distribution.getD (List.replicate 24 0)).length = 24 := by
    cases hh : h.hourly_distribution with
    | none => simp
    | some l => simpa using (hw.1 l hh).symm ▸ rfl
  have wl7 : (h.weekly_distribution.getD (List.replicate 7 0)).length = 7 := by
    cases hh : h.weekly_distribution with
    | none => simp
    | some l => simpa using (hw.2 l hh).symm ▸ rfl
  have e1 : (update_habits h ts).hourly_distribution =
      some ((h.hourly_distribution.getD (List.replicate 24 0)).set (ts.hour : ℕ)
        ((h.hourly_distribution.getD (List.replicate 24 0)).getD (ts.hour : ℕ) 0 + 1)) :=
    rfl
  have e2 : (update_habits h ts).weekly_distribution =
      some ((h.weekly_distribution.getD (List.replicate 7 0)).set (ts.weekday : ℕ)
        ((h.weekly_distribution.getD (List.replicate 7 0)).getD (ts.weekday : ℕ) 0 + 1)) :=
    rfl
  refine ⟨?_, ?_, ?_, ?_⟩
  · rw [e1, dist_sum_some,
      sum_set_getD_add_one _ _ (by rw [hl24]; exact ts.hour.isLt),
      dist_sum_getD]
  · rw [e2, dist_sum_some,
      sum_set_getD_add_one _ _ (by rw [wl7]; exact ts.weekday.isLt),
      dist_sum_getD]
  · intro l hl
    rw [e1] at hl
    simp only [Option.some.injEq] at hl
    rw [← hl, List.length_set, hl24]
  · intro l hl
    rw [e2] at hl
    simp only [Option.some.injEq] at hl
    rw [← hl, List.length_set, wl7]

lemma update_model_habit_step (categorize : Transaction → String)
    (m : BehaviourModel) (tx : Transaction) (hw : habits_wf m.habits) :
    dist_sum (update_model categorize (some m) tx).habits.hourly_distribution =
      dist_sum m.habits.hourly_distribution +
        (if tx.type == "debit" && tx.timestamp.isSome then 1 else 0) ∧
    dist_sum (update_model categorize (some m) tx).habits.weekly_distribution =
      dist_sum m.habits.weekly_distribution +
        (if tx.type == "debit" && tx.timestamp.isSome then 1 else 0) ∧
    habits_wf (update_model categorize (some m) tx).habits := by
  by_cases hd : tx.type = "debit"
  · rw [update_model_debit categorize m tx hd]
    cases hts : tx.timestamp with
    | none => simp [hts, hw]
    | some t =>
      have hu := update_habits_sums m.habits t hw
      simp [hts, hd, hu.1, hu.2.1, hu.2.2]
  · rw [update_model_not_debit _ _ _ hd]
    have : (tx.type == "debit") = false := beq_eq_false_iff_ne.mpr hd
    simp [this, hw]

/-- **C10**: starting from a freshly created model, the entries of the
hourly and the weekly habit histogram have the same sum, equal to the
number of folded debit transactions carrying a timestamp — each update
increments one bucket in each histogram, or neither. -/
theorem habit_histogram_sums (categorize : Transaction → String)
    (txs : List Transaction) :
    dist_sum (run_updates categorize fresh_model txs).habits.hourly_distribution =
      txs.countP (fun tx => tx.type == "debit" && tx.timestamp.isSome) ∧
    dist_sum (run_updates categorize fresh_model txs).habits.weekly_distribution =
      txs.countP (fun tx => tx.type == "debit" && tx.timestamp.isSome) := by
  have main : ∀ (l : List Transaction) (m : BehaviourModel), habits_wf m.habits →
      dist_sum (run_updates categorize m l).habits.hourly_distribution =
        dist_sum m.habits.hourly_distribution +
          l.countP (fun tx => tx.type == "debit" && tx.timestamp.isSome) ∧
      dist_sum (run_updates categorize m l).habits.weekly_distribution =
        dist_sum m.habits.weekly_distribution +
          l.countP (fun tx => tx.type == "debit" && tx.timestamp.isSome) ∧
      habits_wf (run_updates categorize m l).habits := by
    intro l
    induction l with
    | nil =>
      intro m hw
      exact ⟨by simp [run_updates, List.countP_nil], by simp [run_updates, List.countP_nil], hw⟩
    | cons tx rest ih =>
      intro m hw
      have hstep := update_model_habit_step categorize m tx hw
      have hrest := ih (update_model categorize (some m) tx) hstep.2.2
      have hrun : run_updates categorize m (tx :: rest) =
          run_updates categorize (update_model categorize (some m) tx) rest := rfl
      refine ⟨?_, ?_, hrun ▸ hrest.2.2⟩
      · rw [hrun, hrest.1, hstep.1, List.countP_cons]
        omega
      · rw [hrun, hrest.2.1, hstep.2.1, List.countP_cons]
        omega
  have hwf : habits_wf fresh_model.habits :=
    ⟨fun l hl => by simp [fresh_model] at hl, fun l hl => by simp [fresh_model] at hl⟩
  exact ⟨((main txs fresh_model hwf).1).trans (by simp [fresh_model, dist_sum]),
    ((main txs fresh_model hwf).2.1).trans (by simp [fresh_model, dist_sum])⟩

/-! ## Claim C5: reallocation always reports balanced totals -/

/-- **C5**: whenever `simulate_reallocation` returns a response (in
particular whenever the requested categories pass validation), that
response reports `projected_monthly == baseline_monthly` and
`is_balanced`, whether or not the deltas sum to zero
(simulation_old.py lines 336-339). -/
theorem reallocation_balanced (m0 : Option BehaviourModel) (txs : List ℝ)
    (reallocations : List (String × ℝ)) (r : ReallocationResponse)
    (h : simulate_reallocation m0 txs reallocations = .ok r) :
    r.projected_monthly = r.baseline_monthly ∧ r.is_balanced = true := by
  unfold simulate_reallocation at h
  match m0 with
  | none => exact absurd h (by simp)
  | some model =>
    dsimp only at h
    split_ifs at h
    all_goals
      injection h with h'
      rw [← h']
      exact ⟨rfl, rfl⟩

/-- The response of the concrete reallocation used as witness. -/
noncomputable def R5 : ReallocationResponse :=
  { baseline_monthly := 50
    projected_monthly := 50
    is_balanced := true
    reallocations := [
      { category := "SAVINGS"
        current_monthly := 0
        change_amount := 30
        new_monthly := 30
        change_percent := 100.0
        feasibility := "comfortable" }]
    feasibility_assessment := "This reallocation is comfortable and achievable" }

/-- Witness for C5: moving 30 into SAVINGS (deltas do *not* net to zero)
still reports `projected_monthly == baseline_monthly`. -/
theorem reallocation_balanced_witness :
    ∃ r, simulate_reallocation (some fresh_model) [50] [("SAVINGS", 30)] = .ok r ∧
      r.projected_monthly = r.baseline_monthly ∧ r.is_balanced = true := by
  have h : simulate_reallocation (some fresh_model) [50] [("SAVINGS", 30)] =
      .ok R5 := by
    unfold simulate_reallocation realloc_detail feasibility_score R5 fresh_model
    norm_num [List.lookup_nil]
  exact ⟨R5, h, reallocation_balanced _ _ _ R5 h⟩

/-! ## Claims C1 and C7: Welford correctness and record invariants -/

/-- Iterating the Welford update over a batch, starting from the empty
stats dict. -/
noncomputable def welford_run (l : List ℝ) : CategoryStats :=
  l.foldl update_welford_stats empty_stats

/-- Sum of squares of a batch. -/
def sumSq (l : List ℝ) : ℝ := (l.map (fun x => x ^ 2)).sum

lemma welford_run_append (l : List ℝ) (a : ℝ) :
    welford_run (l ++ [a]) = update_welford_stats (welford_run l) a := by
  unfold welford_run
  rw [List.foldl_append]
  rfl

lemma update_welford_stats_count (s : CategoryStats) (a : ℝ) :
    (update_welford_stats s a).count = s.count + 1 := rfl

lemma update_welford_stats_sum (s : CategoryStats) (a : ℝ) :
    (update_welford_stats s a).sum = s.sum + a := rfl

lemma update_welford_stats_mean (s : CategoryStats) (a : ℝ) :
    (update_welford_stats s a).mean =
      s.mean + (a - s.mean) / ((s.count + 1 : ℕ) : ℝ) := rfl

lemma update_welford_stats_m2 (s : CategoryStats) (a : ℝ) :
    (update_welford_stats s a).m2 =
      s.m2 + (a - s.mean) * (a - (update_welford_stats s a).mean) := rfl

lemma update_welford_stats_variance (s : CategoryStats) (a : ℝ) :
    (update_welford_stats s a).variance =
      if 1 < s.count + 1 then (update_welford_stats s a).m2 / ((s.count + 1 : ℕ) : ℝ)
      else 0 := rfl

lemma update_welford_stats_std_dev (s : CategoryStats) (a : ℝ) :
    (update_welford_stats s a).std_dev =
      Real.sqrt (update_welford_stats s a).variance := rfl

lemma update_welford_stats_min (s : CategoryStats) (a : ℝ) :
    (update_welford_stats s a).min = some (Min.min (s.min.getD a) a) := rfl

lemma update_welford_stats_max (s : CategoryStats) (a : ℝ) :
    (update_welford_stats s a).max = some (Max.max (s.max.getD a) a) := rfl

lemma welford_mean_step (n : ℕ) (S a : ℝ) (hS : n = 0 → S = 0) :
    S / (n : ℝ) + (a - S / (n : ℝ)) / ((n + 1 : ℕ) : ℝ) =
      (S + a) / ((n + 1 : ℕ) : ℝ) := by
  rcases Nat.eq_zero_or_pos n with h0 | hp
  · subst h0
    rw [hS rfl]
    push_cast
    simp
  · have hN : ((n : ℝ)) ≠ 0 := Nat.cast_ne_zero.mpr (Nat.pos_iff_ne_zero.mp hp)
    have hN1 : ((n : ℝ) + 1) ≠ 0 := by positivity
    push_cast
    field_simp
    ring

lemma welford_m2_step (n : ℕ) (S Q a : ℝ) (hS : n = 0 → S = 0 ∧ Q = 0) :
    (Q - S ^ 2 / (n : ℝ)) +
        (a - S / (n : ℝ)) * (a - (S + a) / ((n + 1 : ℕ) : ℝ)) =
      (Q + a ^ 2) - (S + a) ^ 2 / ((n + 1 : ℕ) : ℝ) := by
  rcases Nat.eq_zero_or_pos n with h0 | hp
  · subst h0
    rw [(hS rfl).1, (hS rfl).2]
    push_cast
    ring_nf
  · have hN : ((n : ℝ)) ≠ 0 := Nat.cast_ne_zero.mpr (Nat.pos_iff_ne_zero.mp hp)
    have hN1 : ((n : ℝ) + 1) ≠ 0 := by positivity
    push_cast
    field_simp
    ring

/-- The running invariant of the Welford fold from the empty record. -/
lemma welford_run_spec (l : List ℝ) :
    (welford_run l).count = l.length ∧
    (welford_run l).sum = l.sum ∧
    (welford_run l).mean = l.sum / (l.length : ℝ) ∧
    (welford_run l).m2 = sumSq l - l.sum ^ 2 / (l.length : ℝ) ∧
    (welford_run l).variance =
      (if 1 < l.length then (welford_run l).m2 / (l.length : ℝ) else 0) ∧
    (welford_run l).std_dev = Real.sqrt (welford_run l).variance ∧
    (l = [] → (welford_run l).min = none ∧ (welford_run l).max = none) ∧
    (l ≠ [] → ∃ mn mx, (welford_run l).min = some mn ∧
      (welford_run l).max = some mx ∧ mn ∈ l ∧ mx ∈ l ∧
      ∀ y ∈ l, mn ≤ y ∧ y ≤ mx) := by
  induction l using List.reverseRecOn with
  | nil =>
    refine ⟨rfl, rfl, by simp [welford_run, empty_stats], ?_, ?_, ?_, ?_, ?_⟩
    · simp [welford_run, empty_stats, sumSq]
    · simp [welford_run, empty_stats]
    · simp [welford_run, empty_stats, Real.sqrt_zero]
    · exact fun _ => ⟨rfl, rfl⟩
    · exact fun h => absurd rfl h
  | append_singleton l a ih =>
    obtain ⟨ihc, ihs, ihm, ihm2, _, _, ihnil, ihne⟩ := ih
    have hS0 : l.length = 0 → l.sum = 0 ∧ sumSq l = 0 := by
      intro h0
      rcases List.length_eq_zero.mp h0 with rfl
      exact ⟨rfl, rfl⟩
    rw [welford_run_append]
    have hlen : (l ++ [a]).length = l.length + 1 := by simp
    have hsum : (l ++ [a]).sum = l.sum + a := by simp
    have hsumSq : sumSq (l ++ [a]) = sumSq l + a ^ 2 := by simp [sumSq]
    have hc : (update_welford_stats (welford_run l) a).count = l.length + 1 := by
      rw [update_welford_stats_count, ihc]
    have hs : (update_welford_stats (welford_run l) a).sum = l.sum + a := by
      rw [update_welford_stats_sum, ihs]
    have hm : (update_welford_stats (welford_run l) a).mean =
        (l.sum + a) / ((l.length + 1 : ℕ) : ℝ) := by
      rw [update_welford_stats_mean, ihm, ihc]
      exact welford_mean_step l.length l.sum a (fun h0 => (hS0 h0).1)
    have hm2 : (update_welford_stats (welford_run l) a).m2 =
        (sumSq l + a ^ 2) - (l.sum + a) ^ 2 / ((l.length + 1 : ℕ) : ℝ) := by
      rw [update_welford_stats_m2, hm, ihm2, ihm]
      exact welford_m2_step l.length l.sum (sumSq l) a hS0
    refine ⟨by rw [hc, hlen], by rw [hs, hsum], ?_, ?_, ?_,
      update_welford_stats_std_dev _ _, ?_, ?_⟩
    · rw [hm, hsum, hlen]
    · rw [hm2, hsum, hsumSq, hlen]
    · rw [update_welford_stats_variance, ihc, hlen]
    · intro h
      exact absurd h (by simp)
    · intro _
      rcases List.eq_nil_or_concat' l with rfl | hne'
      · refine ⟨a, a, ?_, ?_, by simp, by simp, ?_⟩
        · rw [update_welford_stats_min, (ihnil rfl).1]
          simp
        · rw [update_welford_stats_max, (ihnil rfl).2]
          simp
        · intro y hy
          simp only [List.nil_append, List.mem_singleton] at hy
          exact ⟨le_of_eq hy.symm, le_of_eq hy⟩
      · have hlne : l ≠ [] := by
          rcases hne' with ⟨t, x, rfl⟩
          simp
        obtain ⟨mn, mx, hmn, hmx, hmnl, hmxl, hbd⟩ := ihne hlne
        refine ⟨Min.min mn a, Max.max mx a, ?_, ?_, ?_, ?_, ?_⟩
        · rw [update_welford_stats_min, hmn]
          rfl
        · rw [update_welford_stats_max, hmx]
          rfl
        · rcases min_cases mn a with ⟨he, _⟩ | ⟨he, _⟩
          · rw [he]; exact List.mem_append_left _ hmnl
          · rw [he]; exact List.mem_append_right _ (by simp)
        · rcases max_cases mx a with ⟨he, _⟩ | ⟨he, _⟩
          · rw [he]; exact List.mem_append_left _ hmxl
          · rw [he]; exact List.mem_append_right _ (by simp)
        · intro y hy
          rcases List.mem_append.mp hy with hyl | hya
          · exact ⟨le_trans (min_le_left _ _) (hbd y hyl).1,
              le_trans (hbd y hyl).2 (le_max_left _ _)⟩
          · simp only [List.mem_singleton] at hya
            subst hya
            exact ⟨min_le_right _ _, le_max_right _ _⟩

lemma sum_sq_dev (l : List ℝ) (c : ℝ) :
    (l.map (fun x => (x - c) ^ 2)).sum =
      sumSq l - 2 * c * l.sum + (l.length : ℝ) * c ^ 2 := by
  induction l with
  | nil => simp [sumSq]
  | cons x t ih =>
    simp only [List.map_cons, List.sum_cons, ih, sumSq, List.length_cons]
    push_cast
    ring

lemma list_avg_bounds (l : List ℝ) (hne : l ≠ []) (mn mx : ℝ)
    (hb : ∀ y ∈ l, mn ≤ y ∧ y ≤ mx) :
    mn ≤ l.sum / (l.length : ℝ) ∧ l.sum / (l.length : ℝ) ≤ mx := by
  have hn : (0:ℝ) < (l.length : ℝ) := by
    exact_mod_cast List.length_pos.mpr hne
  have h1 : (l.length : ℝ) * mn ≤ l.sum := by
    have := List.card_nsmul_le_sum l mn (fun x hx => (hb x hx).1)
    simpa [nsmul_eq_mul] using this
  have h2 : l.sum ≤ (l.length : ℝ) * mx := by
    have := List.sum_le_card_nsmul l mx (fun x hx => (hb x hx).2)
    simpa [nsmul_eq_mul] using this
  constructor
  · rw [le_div_iff₀ hn]
    linarith
  · rw [div_le_iff₀ hn]
    linarith

/-- **C1**: iterating `update_welford_stats` over a non-empty batch from the
empty record reproduces the batch count, total, arithmetic mean, population
variance, minimum and maximum — exactly, in the real-number model. -/
theorem welford_batch (l : List ℝ) (h : l ≠ []) :
    (welford_run l).count = l.length ∧
    (welford_run l).sum = l.sum ∧
    (welford_run l).mean = l.sum / (l.length : ℝ) ∧
    (welford_run l).variance =
      (l.map (fun x => (x - l.sum / (l.length : ℝ)) ^ 2)).sum / (l.length : ℝ) ∧
    (∃ mn, (welford_run l).min = some mn ∧ mn ∈ l ∧ ∀ y ∈ l, mn ≤ y) ∧
    (∃ mx, (welford_run l).max = some mx ∧ mx ∈ l ∧ ∀ y ∈ l, y ≤ mx) := by
  obtain ⟨hc, hs, hm, hm2, hv, _, _, hne⟩ := welford_run_spec l
  obtain ⟨mn, mx, hmn, hmx, hmnl, hmxl, hbd⟩ := hne h
  have hN : (0:ℝ) < (l.length : ℝ) := by
    exact_mod_cast List.length_pos.mpr h
  have hbatch : (l.map (fun x => (x - l.sum / (l.length : ℝ)) ^ 2)).sum =
      sumSq l - l.sum ^ 2 / (l.length : ℝ) := by
    rw [sum_sq_dev]
    field_simp
    ring
  refine ⟨hc, hs, hm, ?_, ⟨mn, hmn, hmnl, fun y hy => (hbd y hy).1⟩,
    ⟨mx, hmx, hmxl, fun y hy => (hbd y hy).2⟩⟩
  rw [hv, hbatch, ← hm2]
  by_cases h1 : 1 < l.length
  · rw [if_pos h1]
  · rw [if_neg h1]
    have hp := List.length_pos.mpr h
    have hl1 : l.length = 1 := by omega
    obtain ⟨x, rfl⟩ := List.length_eq_one.mp hl1
    have hz : (welford_run [x]).m2 = 0 := by
      obtain ⟨_, _, _, hm2', _⟩ := welford_run_spec [x]
      rw [hm2']
      norm_num [sumSq]
    rw [hz, zero_div]

/-- Witness for C1 on the batch `[2, 4]`: count 2, sum 6, mean 3,
population variance 1. -/
theorem welford_batch_witness :
    (welford_run [2, 4]).count = 2 ∧ (welford_run [2, 4]).sum = 6 ∧
    (welford_run [2, 4]).mean = 3 ∧ (welford_run [2, 4]).variance = 1 := by
  obtain ⟨hc, hs, hm, hv, _⟩ := welford_batch [2, 4] (by simp)
  refine ⟨by simpa using hc, ?_, ?_, ?_⟩
  · rw [hs]
    norm_num
  · rw [hm]
    norm_num
  · rw [hv]
    norm_num

/-! The C7 claim quantifies over *any composition* of the two statistics
operations starting from the zero record, so the compositions are made a
small expression language. -/

inductive StatsOp where
  | update : ℝ → StatsOp
  | decay : ℝ → StatsOp

noncomputable def apply_stats_op (s : CategoryStats) : StatsOp → CategoryStats
  | .update a => update_welford_stats s a
  | .decay f => apply_time_decay s f

noncomputable def run_stats_ops (ops : List StatsOp) : CategoryStats :=
  ops.foldl apply_stats_op empty_stats

/-- The `variance = m2/count` relation of C7. -/
def VarInv (s : CategoryStats) : Prop :=
  (1 < s.count → s.variance = s.m2 / (s.count : ℝ)) ∧
  (s.count ≤ 1 → s.variance = 0)

lemma varInv_update (s : CategoryStats) (a : ℝ) :
    VarInv (update_welford_stats s a) := by
  constructor
  · intro h1
    rw [update_welford_stats_count] at h1
    rw [update_welford_stats_variance, if_pos h1, update_welford_stats_count]
  · intro h1
    rw [update_welford_stats_count] at h1
    rw [update_welford_stats_variance, if_neg (by omega)]

lemma varInv_decay (s : CategoryStats) (f : ℝ) (h : VarInv s) :
    VarInv (apply_time_decay s f) := by
  unfold apply_time_decay
  split_ifs with h0
  · exact h
  · constructor
    · intro h1
      show s.variance * f = s.m2 * f / (s.count : ℝ)
      rw [h.1 h1]
      ring
    · intro h1
      show s.variance * f = 0
      rw [h.2 h1, zero_mul]

lemma foldl_varInv (ops : List StatsOp) :
    ∀ s, VarInv s → VarInv (ops.foldl apply_stats_op s) := by
  induction ops with
  | nil => exact fun s h => h
  | cons op rest ih =>
    intro s h
    refine ih _ ?_
    cases op with
    | update a => exact varInv_update s a
    | decay f => exact varInv_decay s f h

lemma run_stats_ops_varInv (ops : List StatsOp) : VarInv (run_stats_ops ops) :=
  foldl_varInv ops empty_stats ⟨fun h1 => absurd h1 (by simp [empty_stats]),
    fun _ => rfl⟩

lemma apply_time_decay_std_dev (s : CategoryStats) (f : ℝ) :
    (apply_time_decay s f).std_dev = s.std_dev := by
  unfold apply_time_decay
  split <;> rfl

lemma apply_time_decay_min (s : CategoryStats) (f : ℝ) :
    (apply_time_decay s f).min = s.min := by
  unfold apply_time_decay
  split <;> rfl

lemma apply_time_decay_mean_pos (s : CategoryStats) (f : ℝ) (h : ¬ s.count = 0) :
    (apply_time_decay s f).mean = s.mean * f := by
  unfold apply_time_decay
  rw [if_neg h]

lemma apply_time_decay_variance_pos (s : CategoryStats) (f : ℝ)
    (h : ¬ s.count = 0) :
    (apply_time_decay s f).variance = s.variance * f := by
  unfold apply_time_decay
  rw [if_neg h]

/-- The record after folding 2 and 4 and decaying, as used in the C7
counterexample. -/
lemma run_two_updates_decay (f : ℝ) :
    run_stats_ops [.update 2, .update 4, .decay f] =
      apply_time_decay (welford_run [2, 4]) f := rfl

lemma welford_24_fields :
    (welford_run [2, 4]).count = 2 ∧ (welford_run [2, 4]).mean = 3 ∧
    (welford_run [2, 4]).variance = 1 ∧ (welford_run [2, 4]).std_dev = 1 ∧
    (welford_run [2, 4]).min = some 2 := by
  obtain ⟨hc, hs, hm, hm2, hv, hstd, _, _⟩ := welford_run_spec [2, 4]
  have hm3 : (welford_run [2, 4]).mean = 3 := by
    rw [hm]
    norm_num
  have hm22 : (welford_run [2, 4]).m2 = 2 := by
    rw [hm2]
    norm_num [sumSq]
  have hv1 : (welford_run [2, 4]).variance = 1 := by
    rw [hv, hm22]
    norm_num
  refine ⟨by simpa using hc, hm3, hv1, ?_, ?_⟩
  · rw [hstd, hv1, Real.sqrt_one]
  · have : (welford_run [2, 4]).min = some (Min.min (Min.min 2 2) 4) := rfl
    rw [this]
    norm_num [min_def]

/-- **C7 counterexample**: `apply_time_decay` scales `variance` but leaves
`std_dev` unchanged (statistics.py lines 49-54), so after
`update 2; update 4; decay 0.98` the record has `std_dev = 1` while
`sqrt(variance) = sqrt 0.98`; and a decay with factor `0.5` drags the mean
(1.5) below the untouched `min` (2). -/
theorem stats_invariants_counterexample :
    ((run_stats_ops [.update 2, .update 4, .decay 0.98]).std_dev ≠
      Real.sqrt (run_stats_ops [.update 2, .update 4, .decay 0.98]).variance) ∧
    ((run_stats_ops [.update 2, .update 4, .decay 0.5]).min = some 2 ∧
      1 ≤ (run_stats_ops [.update 2, .update 4, .decay 0.5]).count ∧
      ¬ ((2:ℝ) ≤ (run_stats_ops [.update 2, .update 4, .decay 0.5]).mean)) := by
  obtain ⟨hc, hm, hv, hstd, hmin⟩ := welford_24_fields
  have hc0 : ¬ (welford_run [2, 4]).count = 0 := by omega
  refine ⟨?_, ?_, ?_, ?_⟩
  · rw [run_two_updates_decay, apply_time_decay_std_dev, hstd,
      apply_time_decay_variance_pos _ _ hc0, hv, one_mul]
    have hlt : Real.sqrt 0.98 < 1 := by
      rw [show (1:ℝ) = Real.sqrt 1 from (Real.sqrt_one).symm]
      exact Real.sqrt_lt_sqrt (by norm_num) (by norm_num)
    intro he
    rw [← he] at hlt
    exact lt_irrefl _ hlt
  · rw [run_two_updates_decay, apply_time_decay_min, hmin]
  · rw [run_two_updates_decay, apply_time_decay_count, hc]
    omega
  · rw [run_two_updates_decay, apply_time_decay_mean_pos _ _ hc0, hm]
    norm_num

/-- **C7 (amended)**: for *every* composition of the statistics operations
from the zero record, `variance = m2/count` when `count > 1` and `0`
otherwise; `std_dev = sqrt(variance)` and `min ≤ mean ≤ max` additionally
hold for every decay-free composition (iterated Welford updates), but
`apply_time_decay` preserves neither of the latter two. -/
theorem stats_invariants (ops : List StatsOp) (l : List ℝ) (hl : l ≠ []) :
    (1 < (run_stats_ops ops).count →
      (run_stats_ops ops).variance =
        (run_stats_ops ops).m2 / ((run_stats_ops ops).count : ℝ)) ∧
    ((run_stats_ops ops).count ≤ 1 → (run_stats_ops ops).variance = 0) ∧
    (welford_run l).std_dev = Real.sqrt (welford_run l).variance ∧
    (∀ mn mx, (welford_run l).min = some mn → (welford_run l).max = some mx →
      mn ≤ (welford_run l).mean ∧ (welford_run l).mean ≤ mx) := by
  obtain ⟨hinv1, hinv2⟩ := run_stats_ops_varInv ops
  obtain ⟨_, _, hm, _, _, hstd, _, hne⟩ := welford_run_spec l
  refine ⟨hinv1, hinv2, hstd, fun mn mx hmn hmx => ?_⟩
  obtain ⟨mn', mx', hmn', hmx', _, _, hbd⟩ := hne hl
  rw [hmn'] at hmn
  rw [hmx'] at hmx
  obtain rfl : mn' = mn := by injection hmn
  obtain rfl : mx' = mx := by injection hmx
  rw [hm]
  exact list_avg_bounds l hl _ _ hbd

/-- Witness for C7 (amended) on `update 2; update 4; decay 0.98` (variance
relation) and the decay-free batch `[2, 4]`. -/
theorem stats_invariants_witness :
    (run_stats_ops [.update 2, .update 4, .decay 0.98]).variance =
      (run_stats_ops [.update 2, .update 4, .decay 0.98]).m2 /
        ((run_stats_ops [.update 2, .update 4, .decay 0.98]).count : ℝ) ∧
    (welford_run [2, 4]).std_dev = Real.sqrt (welford_run [2, 4]).variance := by
  have hcount : 1 < (run_stats_ops [.update 2, .update 4, .decay 0.98]).count := by
    rw [run_two_updates_decay, apply_time_decay_count, welford_24_fields.1]
    omega
  exact ⟨(stats_invariants [.update 2, .update 4, .decay 0.98] [2, 4]
      (by simp)).1 hcount,
    (stats_invariants [.update 2, .update 4, .decay 0.98] [2, 4] (by simp)).2.2.1⟩

/-! ## Claim C2: achievable percentage versus target percentage -/

lemma roundHalfEven_intCast (n : ℤ) : roundHalfEven ((n : ℤ) : ℝ) = n := by
  unfold roundHalfEven
  rw [Int.fract_intCast]
  rw [if_neg (by norm_num)]
  exact round_intCast n

lemma pyRound1_eq_of_mul_ten (x : ℝ) (n : ℤ) (h : x * 10 = (n : ℝ)) :
    pyRound1 x = (n : ℝ) / 10 := by
  unfold pyRound1
  rw [h, roundHalfEven_intCast]

/-- The stats record of the model used in the C2 counterexample: one
observed DINING transaction of 1000. -/
def M2stats : CategoryStats :=
  { count := 1, sum := 1000, mean := 1000, variance := 0, std_dev := 0, m2 := 0,
    min := some 1000, max := some 1000 }

/-- The model of the C2 counterexample: mean DINING spend 1000 with
elasticity 0.5, while the analysed transaction window only contains a
single debit of 1. -/
def M2 : BehaviourModel :=
  { category_stats := [("DINING", M2stats)], elasticity := [("DINING", 0.5)],
    baselines := [], impulse_score := 0,
    habits := { hourly_distribution := none, weekly_distribution := none },
    transaction_count := 1 }

/-- **C2 counterexample**: `achievable_percent` is
`total_change / baseline_windowsum * 100` (simulation_old.py line 142),
where the per-category means come from the model, not from the analysed
window — a 10% reduction target on the model above reports
`achievable_percent = 10000 > 10 = target_percent`. -/
theorem achievable_exceeds_target :
    (simulate_spending_scenario (some M2) [1] "reduction" 10 none).map
        (fun r => (r.achievable_percent, r.target_percent)) =
      .ok ((10000 : ℝ), (10 : ℝ)) ∧ ¬ ((10000 : ℝ) ≤ (10 : ℝ)) := by
  refine ⟨?_, by norm_num⟩
  have hdisc : "DINING" ∈ DISCRETIONARY_CATEGORIES := by decide
  have hround : pyRound1 (10000 : ℝ) = 10000 := by
    rw [pyRound1_eq_of_mul_ten _ 100000 (by norm_num)]
    norm_num
  unfold simulate_spending_scenario sim_category category_achievable_pct
    category_max_change_pct M2 M2stats
  norm_num [List.lookup_cons, hdisc, min_def]
  simp [Except.map, hround]

/-- **C2 (amended)**: the clamping to `target_percent` holds per category
for increase scenarios, while for reductions the impulse boost for
discretionary categories may push a category's achievable percentage above
`target_percent` up to the elasticity cap `elasticity*100`; consequently
the overall `achievable_percent` (a ratio against the window baseline) is
not bounded by `target_percent`. -/
theorem achievable_pct_bounds (scenario_type category : String)
    (elas impulse target : ℝ) :
    (scenario_type ≠ "reduction" →
      category_achievable_pct scenario_type category elas impulse target ≤
        target) ∧
    category_achievable_pct "reduction" category elas impulse target ≤
      Max.max (elas * 100) target := by
  constructor
  · intro h
    unfold category_achievable_pct
    rw [if_neg h]
    exact min_le_left _ _
  · unfold category_achievable_pct category_max_change_pct
    rw [if_pos rfl]
    dsimp only
    rw [if_pos rfl]
    split_ifs with h
    · exact le_trans (min_le_right _ _) (le_max_left _ _)
    · exact le_trans (min_le_left _ _) (le_max_right _ _)

/-- Witness for C2 (amended) at concrete inputs: an increase scenario stays
below target; a reduction with full impulse boost stays below the
elasticity cap. -/
theorem achievable_pct_bounds_witness :
    category_achievable_pct "increase" "DINING" 0.5 0 10 ≤ 10 ∧
    category_achievable_pct "reduction" "DINING" 0.5 1 10 ≤
      Max.max (0.5 * 100) 10 :=
  ⟨(achievable_pct_bounds "increase" "DINING" 0.5 0 10).1 (by decide),
   (achievable_pct_bounds "reduction" "DINING" 0.5 1 10).2⟩

end Volt
